import Mathlib

/-!
Shallow embedding of the business logic of sistema-ventas-paraguay
(React/TypeScript frontend of a Paraguayan ERP).

JavaScript numbers are embedded as rationals (ℚ), date values as a day
index (days since the epoch) together with the milliseconds elapsed since
the midnight of that day.  Each definition is translated from the source
file named in its doc comment; the few server-side operations that are not
part of the repository files are modelled from the specification and say so
in their doc comment.
-/

namespace SistemaVentas

/-- JavaScript `x || d` on a (non-NaN) number: `x` is falsy exactly when it
is zero, in which case the default `d` is produced. -/
def jsOr (x d : ℚ) : ℚ := if x = 0 then d else x

theorem jsOr_zero (x : ℚ) : jsOr x 0 = x := by
  unfold jsOr; split <;> simp_all

/-- Product record (interface Product, Quotes.tsx lines 49-56; the fields
the quote dialog reads, plus the stock field the frame claim is about). -/
structure Product where
  id : ℕ
  name : String
  unit_price : ℚ
  stock_quantity : ℚ
  deriving DecidableEq

/-- Quote line-item (interface QuoteLine, Quotes.tsx lines 58-65). -/
structure QuoteLine where
  product_id : ℕ
  product_name : String
  quantity : ℚ
  unit_price : ℚ
  discount : ℚ
  subtotal : ℚ
  deriving DecidableEq

/-- Quotes.tsx handleAddProduct, merge branch (lines 183-189): the existing
line gets `quantity += productQuantity`, `discount = productDiscount`, and
`subtotal = (quantity || 0) * (unit_price || 0) * (1 - (productDiscount || 0) / 100)`. -/
def mergeLine (line : QuoteLine) (productQuantity productDiscount : ℚ) : QuoteLine :=
  let q := line.quantity + productQuantity
  { line with
    quantity := q
    discount := productDiscount
    subtotal := jsOr q 0 * jsOr line.unit_price 0 * (1 - jsOr productDiscount 0 / 100) }

/-- Quotes.tsx handleAddProduct, new-line branch (lines 192-199). -/
def newQuoteLine (p : Product) (productQuantity productDiscount : ℚ) : QuoteLine :=
  { product_id := p.id
    product_name := p.name
    quantity := jsOr productQuantity 1
    unit_price := jsOr p.unit_price 0
    discount := jsOr productDiscount 0
    subtotal := jsOr productQuantity 1 * jsOr p.unit_price 0 * (1 - jsOr productDiscount 0 / 100) }

/-- Quotes.tsx handleAddProduct (lines 176-206) acting on the line list:
`findIndex` locates the first line whose product_id matches the selected
product; that line is merged in place, otherwise a new line is appended.
The recursion replaces exactly the first match, as findIndex does. -/
def addProductToLines : List QuoteLine → Product → ℚ → ℚ → List QuoteLine
  | [], p, qty, disc => [newQuoteLine p qty disc]
  | line :: rest, p, qty, disc =>
    if line.product_id = p.id then mergeLine line qty disc :: rest
    else line :: addProductToLines rest p qty disc

/-- The component state of the Quotes dialog that the three line-item
handlers read and write (Quotes.tsx lines 93, 110-115). -/
structure QuotesDialogState where
  products : List Product
  quoteLines : List QuoteLine
  selectedProduct : Option Product
  productQuantity : ℚ
  productDiscount : ℚ
  deriving DecidableEq

/-- Quotes.tsx handleAddProduct (lines 176-206): early return when no
product is selected; otherwise the line list is updated and the selection
fields are reset (lines 203-205).  Only setQuoteLines / setSelectedProduct /
setProductQuantity / setProductDiscount are called: the products list is
never written. -/
def handleAddProduct (s : QuotesDialogState) : QuotesDialogState :=
  match s.selectedProduct with
  | none => s
  | some p =>
    { s with
      quoteLines := addProductToLines s.quoteLines p s.productQuantity s.productDiscount
      selectedProduct := none
      productQuantity := 1
      productDiscount := 0 }

/-- Quotes.tsx handleRemoveProduct (lines 208-210): keeps the lines whose
product_id differs from the removed one. -/
def handleRemoveProduct (s : QuotesDialogState) (productId : ℕ) : QuotesDialogState :=
  { s with quoteLines := s.quoteLines.filter (fun line => line.product_id ≠ productId) }

/-- The fields handleUpdateLine is invoked with from the dialog table
(Quotes.tsx lines 724, 733, 742); all three are in the recompute branch of
line 217. -/
inductive LineField where
  | quantity
  | unit_price
  | discount
  deriving DecidableEq

/-- Quotes.tsx line 214: `updatedLines[index] = { ...updatedLines[index], [field]: value }`. -/
def setLineField (line : QuoteLine) : LineField → ℚ → QuoteLine
  | .quantity, v => { line with quantity := v }
  | .unit_price, v => { line with unit_price := v }
  | .discount, v => { line with discount := v }

/-- Quotes.tsx lines 217-222: the subtotal recomputation
`(quantity || 0) * (unit_price || 0) * (1 - (discount || 0) / 100)`. -/
def recomputeSubtotal (line : QuoteLine) : QuoteLine :=
  { line with
    subtotal := jsOr line.quantity 0 * jsOr line.unit_price 0 * (1 - jsOr line.discount 0 / 100) }

/-- Updates the element at the given position, leaving the list unchanged
when the position is past the end (the dialog only passes indices of its
own rows). -/
def updateLineAt : List QuoteLine → ℕ → (QuoteLine → QuoteLine) → List QuoteLine
  | [], _, _ => []
  | line :: rest, 0, f => f line :: rest
  | line :: rest, n + 1, f => line :: updateLineAt rest n f

/-- Quotes.tsx handleUpdateLine (lines 212-225) for the three fields the
dialog edits: the field is overwritten and the subtotal recomputed. -/
def handleUpdateLine (s : QuotesDialogState) (index : ℕ) (field : LineField) (value : ℚ) :
    QuotesDialogState :=
  { s with
    quoteLines :=
      updateLineAt s.quoteLines index (fun line => recomputeSubtotal (setLineField line field value)) }

/-- Result record of calculateTotals (Quotes.tsx lines 227-233). -/
structure QuoteTotals where
  subtotal : ℚ
  taxAmount : ℚ
  total : ℚ
  deriving DecidableEq

/-- Quotes.tsx calculateTotals (lines 227-233):
`subtotal = reduce((sum, line) => sum + (line.subtotal || 0), 0)`,
`taxAmount = subtotal * 0.1`, `total = subtotal + taxAmount`. -/
def calculateTotals (quoteLines : List QuoteLine) : QuoteTotals :=
  let subtotal := quoteLines.foldl (fun sum line => sum + jsOr line.subtotal 0) 0
  let taxAmount := subtotal * (1 / 10)
  let total := subtotal + taxAmount
  { subtotal := subtotal, taxAmount := taxAmount, total := total }

/-- One element of `quoteData.lines` as built by handleSubmit
(Quotes.tsx lines 240-245). -/
structure QuoteLinePayload where
  product_id : ℕ
  quantity : ℚ
  unit_price : ℚ
  discount : ℚ
  deriving DecidableEq

/-- The monetary part of the body handleSubmit sends to the backend
(Quotes.tsx lines 235-249): the stripped lines plus the three totals of
calculateTotals. -/
structure QuotePayload where
  lines : List QuoteLinePayload
  subtotal : ℚ
  tax_amount : ℚ
  total_amount : ℚ
  deriving DecidableEq

/-- Quotes.tsx handleSubmit (lines 235-249), restricted to the payload it
builds (the network call and dialog bookkeeping carry no further logic). -/
def handleSubmitPayload (quoteLines : List QuoteLine) : QuotePayload :=
  let totals := calculateTotals quoteLines
  { lines := quoteLines.map (fun line =>
      { product_id := line.product_id
        quantity := line.quantity
        unit_price := line.unit_price
        discount := line.discount })
    subtotal := totals.subtotal
    tax_amount := totals.taxAmount
    total_amount := totals.total }

/-- Deposit status values (Quotes.tsx getStatusColor, lines 1054-1062, and
spec section 3). -/
inductive DepositStatus where
  | ACTIVE
  | APPLIED
  | REFUNDED
  | EXPIRED
  deriving DecidableEq

/-- Deposit record: the original amount is immutable, available_amount is
the depletable balance (spec section 3; interface Deposit is consumed by
the deposits page in Quotes.tsx). -/
structure Deposit where
  amount : ℚ
  available_amount : ℚ
  status : DepositStatus
  deriving DecidableEq

/-- Modelled from the spec: the server-side handler for
POST /deposits/(id)/apply-to-invoice is not under src/ (only its caller
handleApplyDeposit, Quotes.tsx lines 1020-1035, and the client stub in
api.ts are).  Spec section 4.2: precondition `amount <= available_amount`,
effect `available_amount -= amount`, assumed transition to APPLIED when the
balance reaches 0.  A request failing the precondition is rejected and the
deposit is unchanged. -/
def applyToInvoice (d : Deposit) (amt : ℚ) : Deposit :=
  if amt ≤ d.available_amount then
    let avail := d.available_amount - amt
    { d with
      available_amount := avail
      status := if avail = 0 then .APPLIED else d.status }
  else d

/-- Modelled from the spec: the server-side handler for
POST /deposits/(id)/refund is not under src/ (only its caller
handleRefundDeposit, Quotes.tsx lines 1037-1052, is).  Spec section 4.3:
input amount plus a required non-empty reason, precondition
`amount <= available_amount`, effect `available_amount -= amount`, status
REFUNDED when the balance reaches 0.  A request failing a precondition is
rejected and the deposit is unchanged. -/
def refundDeposit (d : Deposit) (amt : ℚ) (reason : String) : Deposit :=
  if reason ≠ "" ∧ amt ≤ d.available_amount then
    let avail := d.available_amount - amt
    { d with
      available_amount := avail
      status := if avail = 0 then .REFUNDED else d.status }
  else d

/-- One user action on a deposit: apply part of it to an invoice, or refund
part of it with a reason. -/
inductive DepositAction where
  | apply (amt : ℚ) (invoiceId : ℕ)
  | refund (amt : ℚ) (reason : String)
  deriving DecidableEq

/-- The request amount carried by an action. -/
def DepositAction.amountOf : DepositAction → ℚ
  | .apply amt _ => amt
  | .refund amt _ => amt

/-- A sequence of apply / refund round trips against one deposit. -/
def runDepositActions (d : Deposit) (acts : List DepositAction) : Deposit :=
  acts.foldl
    (fun d a =>
      match a with
      | .apply amt _ => applyToInvoice d amt
      | .refund amt reason => refundDeposit d amt reason)
    d

/-- A JavaScript Date value, split into the day it falls on (days since the
epoch) and the milliseconds elapsed since the midnight of that day.
`new Date(dateString)` for a plain date lands on the midnight of that day;
`new Date()` carries the current time of day; `setHours(0,0,0,0)` drops the
millisecond part. -/
structure JsInstant where
  day : ℤ
  ms : ℚ
  deriving DecidableEq

/-- `getTime()`: total milliseconds. -/
def JsInstant.time (t : JsInstant) : ℚ := t.day * 86400000 + t.ms

/-- `getTime()` of a date at midnight of day `d`. -/
def midnight (d : ℤ) : ℚ := d * 86400000

/-- Customers page isRegimeExpiringSoon (src/unnamed/part_000 lines
336-352): both dates are reset to midnight, the day difference is
`Math.ceil((expiry - today) / 86400000)`, and the alert fires when it lies
in 0..5.  A missing date yields false. -/
def isRegimeExpiringSoon (expiryDate : Option ℤ) (todayDay : ℤ) : Bool :=
  match expiryDate with
  | none => false
  | some expiry =>
    let daysUntilExpiry : ℤ := ⌈(midnight expiry - midnight todayDay) / 86400000⌉
    decide (daysUntilExpiry ≤ 5) && decide (0 ≤ daysUntilExpiry)

/-- Customers page isRegimeExpired (src/unnamed/part_000 lines 354-369):
both dates reset to midnight, expired when `expiry < today`. -/
def isRegimeExpired (expiryDate : Option ℤ) (todayDay : ℤ) : Bool :=
  match expiryDate with
  | none => false
  | some expiry => decide (midnight expiry < midnight todayDay)

/-- Products page isExpiringSoon (src/unnamed/part_001 lines 166-172): the
expiry parses to its midnight, but `today = new Date()` keeps the current
time of day; the day difference is `Math.ceil((expiry - today) / 86400000)`
and the alert fires when it lies in 0..30. -/
def isExpiringSoon (expiryDate : Option ℤ) (today : JsInstant) : Bool :=
  match expiryDate with
  | none => false
  | some expiry =>
    let daysUntilExpiry : ℤ := ⌈(midnight expiry - today.time) / 86400000⌉
    decide (daysUntilExpiry ≤ 30) && decide (0 ≤ daysUntilExpiry)

/-- Products page isExpired (src/unnamed/part_001 lines 174-179): the
expiry midnight is compared against the full current instant, with no
midnight reset on `today`. -/
def isExpired (expiryDate : Option ℤ) (today : JsInstant) : Bool :=
  match expiryDate with
  | none => false
  | some expiry => decide (midnight expiry < today.time)

/-- The mutable client state the axios response interceptor touches
(api.ts lines 8-9, the browser token storage and the location). -/
structure ApiClientState where
  token : Option String
  storedToken : Option String
  locationHref : String
  deriving DecidableEq

/-- An axios error as the interceptor reads it: `error.response?.status` is
absent for network failures. -/
structure AxiosError where
  status : Option ℕ
  deriving DecidableEq

/-- api.ts response interceptor, error arm (lines 28-39): on a 401 the
in-memory token is cleared via setToken(null), the stored token removed,
and the location set to /login; in every case the error is re-raised via
Promise.reject. -/
def responseErrorInterceptor (s : ApiClientState) (e : AxiosError) :
    ApiClientState × Except AxiosError Unit :=
  if e.status = some 401 then
    ({ s with token := none, storedToken := none, locationHref := "/login" }, Except.error e)
  else
    (s, Except.error e)

/-- A browser File as handleFileSelect reads it: MIME type and byte size. -/
structure JsFile where
  fileName : String
  mime : String
  size : ℕ
  deriving DecidableEq

/-- The customer-dialog state touched by the file picker
(src/unnamed/part_000 lines 78-79). -/
structure CustomerFileState where
  selectedFile : Option JsFile
  fileError : String
  deriving DecidableEq

/-- Customers page handleFileSelect (src/unnamed/part_000 lines 206-224):
nothing happens without a chosen file; a non-PDF MIME type or a size above
10MB sets the error and returns; otherwise the file is recorded and the
error cleared. -/
def handleFileSelect (s : CustomerFileState) (files : Option JsFile) : CustomerFileState :=
  match files with
  | none => s
  | some file =>
    if file.mime ≠ "application/pdf" then
      { s with fileError := "Solo se permiten archivos PDF" }
    else if file.size > 10 * 1024 * 1024 then
      { s with fileError := "El archivo es demasiado grande. Máximo permitido: 10MB" }
    else
      { selectedFile := some file, fileError := "" }

/-- The upload decision of Customers.handleSubmit (src/unnamed/part_000
line 258): `if (selectedFile && formData.tourism_regime && customer)` the
selected file is sent to uploadTourismPdf; otherwise no upload request is
issued. -/
def tourismUploadRequest (s : CustomerFileState) (tourismRegime customerOk : Bool) :
    Option JsFile :=
  if tourismRegime ∧ customerOk then s.selectedFile else none

/-- The customer form fields the tourism-regime validation of handleSubmit
reads (src/unnamed/part_000 lines 85-100): the expiry is the day parsed
from the date string, none when the string is empty. -/
structure CustomerFormData where
  tourism_regime : Bool
  tourism_regime_expiry : Option ℤ
  deriving DecidableEq

/-- What a run of Customers.handleSubmit amounts to: an early validation
error, or the create/update request (update exactly when a customer is
being edited). -/
inductive CustomerSubmitResult where
  | validationError (msg : String)
  | save (isUpdate : Bool)
  deriving DecidableEq

/-- Customers page handleSubmit, validation prefix (src/unnamed/part_000
lines 226-255): with tourism_regime set, an empty expiry or an expiry whose
midnight is not after the midnight of today sets the error and returns
before any API call; otherwise updateCustomer or createCustomer is
invoked. -/
def customerHandleSubmit (fd : CustomerFormData) (todayDay : ℤ) (editing : Bool) :
    CustomerSubmitResult :=
  if fd.tourism_regime then
    match fd.tourism_regime_expiry with
    | none =>
      .validationError ("Debe proporcionar la fecha de vencimiento del régimen de turismo")
    | some expiry =>
      if midnight expiry ≤ midnight todayDay then
        .validationError ("La fecha de vencimiento del régimen de turismo debe ser futura")
      else
        .save editing
  else
    .save editing

/-- The customer list across one run of handleSubmit: the early validation
return leaves the list untouched; a save re-fetches it (loadCustomers),
yielding whatever list the server then returns. -/
def customerSubmitListEffect (customers fetched : List ℤ) (fd : CustomerFormData)
    (todayDay : ℤ) (editing : Bool) : List ℤ :=
  match customerHandleSubmit fd todayDay editing with
  | .validationError _ => customers
  | .save _ => fetched

/-! ### Helper lemmas -/

theorem foldl_add_jsOr (lines : List QuoteLine) (init : ℚ) :
    lines.foldl (fun sum line => sum + jsOr line.subtotal 0) init
      = init + (lines.map QuoteLine.subtotal).sum := by
  induction lines generalizing init with
  | nil => simp
  | cons l ls ih => rw [List.foldl_cons, ih, jsOr_zero]; simp; ring

/-! ### C1 -/

/-- C1: for every list of quote lines, calculateTotals yields
subtotal = sum of the line subtotal fields, taxAmount = subtotal * 10 %,
total = subtotal + taxAmount, and handleSubmit sends exactly these three
values as subtotal, tax_amount and total_amount. -/
theorem quote_totals_match_payload (lines : List QuoteLine) :
    (calculateTotals lines).subtotal = (lines.map QuoteLine.subtotal).sum
  ∧ (calculateTotals lines).taxAmount = (calculateTotals lines).subtotal * (10 / 100)
  ∧ (calculateTotals lines).total
      = (calculateTotals lines).subtotal + (calculateTotals lines).taxAmount
  ∧ (handleSubmitPayload lines).subtotal = (calculateTotals lines).subtotal
  ∧ (handleSubmitPayload lines).tax_amount = (calculateTotals lines).taxAmount
  ∧ (handleSubmitPayload lines).total_amount = (calculateTotals lines).total := by
  refine ⟨?_, ?_, rfl, rfl, rfl, rfl⟩
  · simp [calculateTotals, foldl_add_jsOr]
  · have h : (10 : ℚ) / 100 = 1 / 10 := by norm_num
    rw [h]
    rfl

/-! ### C3 -/

/-- C3: the three quote-line operations never write the product catalog
state: the products list, and in particular every stock_quantity in it, is
unchanged by handleAddProduct, handleRemoveProduct and handleUpdateLine. -/
theorem quote_ops_leave_products_unchanged (s : QuotesDialogState) (pid index : ℕ)
    (field : LineField) (v : ℚ) :
    (handleAddProduct s).products = s.products
  ∧ (handleRemoveProduct s pid).products = s.products
  ∧ (handleUpdateLine s index field v).products = s.products
  ∧ (handleAddProduct s).products.map Product.stock_quantity
      = s.products.map Product.stock_quantity
  ∧ (handleRemoveProduct s pid).products.map Product.stock_quantity
      = s.products.map Product.stock_quantity
  ∧ (handleUpdateLine s index field v).products.map Product.stock_quantity
      = s.products.map Product.stock_quantity := by
  cases h : s.selectedProduct <;>
    simp [handleAddProduct, handleRemoveProduct, handleUpdateLine, h]

/-! ### C7 -/

/-- C7: the response interceptor always re-raises the error, and exactly on
status 401 it clears the in-memory token, removes the stored token and
redirects to /login; on any other error the client state is untouched. -/
theorem response_interceptor_401_logout (s : ApiClientState) (e : AxiosError) :
    (responseErrorInterceptor s e).2 = Except.error e
  ∧ (e.status = some 401 →
        (responseErrorInterceptor s e).1.token = none
      ∧ (responseErrorInterceptor s e).1.storedToken = none
      ∧ (responseErrorInterceptor s e).1.locationHref = "/login")
  ∧ (e.status ≠ some 401 → (responseErrorInterceptor s e).1 = s) := by
  by_cases h : e.status = some 401 <;> simp [responseErrorInterceptor, h]

/-! ### C8 -/

/-- C8: handleFileSelect records the chosen file and clears the file error
exactly when the MIME type is application/pdf and the size is at most
10 MB; a rejected file leaves the previously selected file unchanged, sets
a non-empty error, and changes nothing about which file an upload request
would send. -/
theorem file_select_validation (s : CustomerFileState) (f : JsFile) :
    (((handleFileSelect s (some f)).selectedFile = some f
        ∧ (handleFileSelect s (some f)).fileError = "")
      ↔ (f.mime = "application/pdf" ∧ f.size ≤ 10 * 1024 * 1024))
  ∧ (¬ (f.mime = "application/pdf" ∧ f.size ≤ 10 * 1024 * 1024) →
        (handleFileSelect s (some f)).selectedFile = s.selectedFile
      ∧ (handleFileSelect s (some f)).fileError ≠ ""
      ∧ ∀ tr ok, tourismUploadRequest (handleFileSelect s (some f)) tr ok
          = tourismUploadRequest s tr ok) := by
  by_cases hm : f.mime = "application/pdf"
  · by_cases hs : f.size ≤ 10 * 1024 * 1024
    · simp [handleFileSelect, hm, hs, Nat.not_lt.mpr hs]
    · simp only [handleFileSelect, hm]
      simp [Nat.lt_of_not_le hs, hm, hs, tourismUploadRequest]
  · simp [handleFileSelect, hm, tourismUploadRequest]

/-! ### C10 -/

/-- C10: with tourism_regime enabled and an expiry that is missing or not
strictly after today, handleSubmit stops at a validation error: no
createCustomer or updateCustomer request is issued and the customer list is
left as it was. -/
theorem tourism_expiry_blocks_submit (fd : CustomerFormData) (todayDay : ℤ) (editing : Bool)
    (customers fetched : List ℤ)
    (ht : fd.tourism_regime = true)
    (hexp : ∀ e, fd.tourism_regime_expiry = some e → e ≤ todayDay) :
    (∃ msg, customerHandleSubmit fd todayDay editing = .validationError msg)
  ∧ (∀ u, customerHandleSubmit fd todayDay editing ≠ .save u)
  ∧ customerSubmitListEffect customers fetched fd todayDay editing = customers := by
  cases hE : fd.tourism_regime_expiry with
  | none => simp [customerHandleSubmit, customerSubmitListEffect, ht, hE]
  | some e =>
    have he : e ≤ todayDay := hexp e hE
    have hmid : midnight e ≤ midnight todayDay := by
      unfold midnight
      have : (e : ℚ) ≤ (todayDay : ℚ) := by exact_mod_cast he
      nlinarith
    simp [customerHandleSubmit, customerSubmitListEffect, ht, hE, hmid]

/-- C10 witness: a concrete form with tourism regime on and expiry equal to
today is blocked, and a list that a successful save would have replaced
stays as it was. -/
theorem tourism_expiry_blocks_submit_witness :
    (∃ msg, customerHandleSubmit ⟨true, some 0⟩ 0 false = .validationError msg)
  ∧ (∀ u, customerHandleSubmit ⟨true, some 0⟩ 0 false ≠ .save u)
  ∧ customerSubmitListEffect [] [5] ⟨true, some 0⟩ 0 false = [] :=
  tourism_expiry_blocks_submit ⟨true, some 0⟩ 0 false [] [5] rfl
    (fun e he => by simp at he; omega)

/-! ### C2 -/

/-- The per-line invariant the code actually maintains: the stored subtotal
is exactly quantity * unit_price * (1 - discount / 100), with no
rounding. -/
def lineSubtotalOk (l : QuoteLine) : Prop :=
  l.subtotal = l.quantity * l.unit_price * (1 - l.discount / 100)

/-- Modelled from the spec: "round(qty_i * price_i * (1 - discount_i/100), 2)"
in section 8, rounding to two decimal places.  Used only to compare the
claim against the code, which does not round. -/
def round2 (x : ℚ) : ℚ := (round (x * 100) : ℤ) / 100

theorem lineSubtotalOk_mergeLine (l : QuoteLine) (qty disc : ℚ) :
    lineSubtotalOk (mergeLine l qty disc) := by
  simp [lineSubtotalOk, mergeLine, jsOr_zero]

theorem lineSubtotalOk_newQuoteLine (p : Product) (qty disc : ℚ) :
    lineSubtotalOk (newQuoteLine p qty disc) := by
  simp [lineSubtotalOk, newQuoteLine, jsOr_zero]

theorem lineSubtotalOk_recompute (l : QuoteLine) :
    lineSubtotalOk (recomputeSubtotal l) := by
  simp [lineSubtotalOk, recomputeSubtotal, jsOr_zero]

theorem mem_addProductToLines (l : QuoteLine) (lines : List QuoteLine) (p : Product)
    (qty disc : ℚ) (h : l ∈ addProductToLines lines p qty disc) :
    l ∈ lines ∨ l = newQuoteLine p qty disc ∨ ∃ l0 ∈ lines, l = mergeLine l0 qty disc := by
  induction lines with
  | nil =>
    simp [addProductToLines] at h
    exact Or.inr (Or.inl h)
  | cons x xs ih =>
    by_cases hx : x.product_id = p.id
    · simp [addProductToLines, hx] at h
      rcases h with h | h
      · exact Or.inr (Or.inr ⟨x, by simp, h⟩)
      · exact Or.inl (by simp [h])
    · simp [addProductToLines, hx] at h
      rcases h with h | h
      · exact Or.inl (by simp [h])
      · rcases ih h with h1 | h1 | ⟨l0, hl0, hmerge⟩
        · exact Or.inl (by simp [h1])
        · exact Or.inr (Or.inl h1)
        · exact Or.inr (Or.inr ⟨l0, by simp [hl0], hmerge⟩)

theorem mem_updateLineAt (l : QuoteLine) (lines : List QuoteLine) (n : ℕ)
    (f : QuoteLine → QuoteLine) (h : l ∈ updateLineAt lines n f) :
    l ∈ lines ∨ ∃ l0 ∈ lines, l = f l0 := by
  induction lines generalizing n with
  | nil => simp [updateLineAt] at h
  | cons x xs ih =>
    cases n with
    | zero =>
      simp [updateLineAt] at h
      rcases h with h | h
      · exact Or.inr ⟨x, by simp, h⟩
      · exact Or.inl (by simp [h])
    | succ m =>
      simp [updateLineAt] at h
      rcases h with h | h
      · exact Or.inl (by simp [h])
      · rcases ih m h with h1 | ⟨l0, hl0, himg⟩
        · exact Or.inl (by simp [h1])
        · exact Or.inr ⟨l0, by simp [hl0], himg⟩

/-- C2 amended: the code keeps the exact product
quantity * unit_price * (1 - discount / 100) as the line subtotal, with no
rounding to two decimal places.  Every quote line still satisfies this
exact form after any handleAddProduct, handleUpdateLine (of quantity,
unit_price or discount) or handleRemoveProduct. -/
theorem quote_line_subtotal_exact (s : QuotesDialogState) (pid index : ℕ)
    (field : LineField) (v : ℚ)
    (h : ∀ l ∈ s.quoteLines, lineSubtotalOk l) :
    (∀ l ∈ (handleAddProduct s).quoteLines, lineSubtotalOk l)
  ∧ (∀ l ∈ (handleUpdateLine s index field v).quoteLines, lineSubtotalOk l)
  ∧ (∀ l ∈ (handleRemoveProduct s pid).quoteLines, lineSubtotalOk l) := by
  refine ⟨?_, ?_, ?_⟩
  · intro l hl
    cases hsel : s.selectedProduct with
    | none => exact h l (by simpa [handleAddProduct, hsel] using hl)
    | some p =>
      simp only [handleAddProduct, hsel] at hl
      rcases mem_addProductToLines l s.quoteLines p s.productQuantity s.productDiscount hl with
        h1 | h1 | ⟨l0, _, h1⟩
      · exact h l h1
      · exact h1 ▸ lineSubtotalOk_newQuoteLine p s.productQuantity s.productDiscount
      · exact h1 ▸ lineSubtotalOk_mergeLine l0 s.productQuantity s.productDiscount
  · intro l hl
    simp only [handleUpdateLine] at hl
    rcases mem_updateLineAt l s.quoteLines index _ hl with h1 | ⟨l0, _, h1⟩
    · exact h l h1
    · exact h1 ▸ lineSubtotalOk_recompute (setLineField l0 field v)
  · intro l hl
    simp only [handleRemoveProduct] at hl
    exact h l (List.mem_of_mem_filter hl)

/-- C2 witness: a concrete add of 2 units at price 100 with 10 percent
discount, then an edit of the quantity, with every subtotal in the exact
unrounded form. -/
theorem quote_line_subtotal_exact_witness :
    (∀ l ∈ (handleAddProduct ⟨[], [], some ⟨1, "A", 100, 3⟩, 2, 10⟩).quoteLines, lineSubtotalOk l)
  ∧ (∀ l ∈ (handleUpdateLine ⟨[], [], some ⟨1, "A", 100, 3⟩, 2, 10⟩ 0 .quantity 5).quoteLines,
      lineSubtotalOk l)
  ∧ (∀ l ∈ (handleRemoveProduct ⟨[], [], some ⟨1, "A", 100, 3⟩, 2, 10⟩ 1).quoteLines,
      lineSubtotalOk l) :=
  quote_line_subtotal_exact ⟨[], [], some ⟨1, "A", 100, 3⟩, 2, 10⟩ 1 0 .quantity 5
    (by simp)

/-- C2 counterexample: adding 1 unit of a product priced 0.10 with a 33
percent discount stores the subtotal 0.067 unrounded, while rounding it to
two decimal places would give 0.07, so the stored subtotal is not the
rounded value the claim states. -/
theorem quote_line_rounding_cex :
    ((handleAddProduct ⟨[], [], some ⟨7, "Articulo", 1 / 10, 5⟩, 1, 33⟩).quoteLines.map
        QuoteLine.subtotal = [67 / 1000])
  ∧ round2 (1 * (1 / 10) * (1 - 33 / 100)) = 7 / 100
  ∧ (67 / 1000 : ℚ) ≠ 7 / 100 := by
  refine ⟨?_, ?_, by norm_num⟩
  · simp [handleAddProduct, addProductToLines, newQuoteLine, jsOr]
    norm_num
  · unfold round2
    norm_num [round_eq]

/-! ### C9 -/

/-- One quote-line operation of the dialog: handleAddProduct with a chosen
product, entered quantity and entered discount; or handleRemoveProduct of a
product id. -/
inductive QuoteLineOp where
  | add (p : Product) (qty disc : ℚ)
  | remove (pid : ℕ)
  deriving DecidableEq

/-- The effect of one operation on the line list (the dialog logic of
Quotes.tsx lines 176-210). -/
def applyQuoteLineOp (lines : List QuoteLine) : QuoteLineOp → List QuoteLine
  | .add p qty disc => addProductToLines lines p qty disc
  | .remove pid => lines.filter (fun line => line.product_id ≠ pid)

/-- Running a sequence of operations from the empty line list a freshly
opened dialog starts with (Quotes.tsx line 161). -/
def runQuoteLineOps (ops : List QuoteLineOp) : List QuoteLine :=
  ops.foldl applyQuoteLineOp []

theorem addProductToLines_ids (lines : List QuoteLine) (p : Product) (qty disc : ℚ) :
    (addProductToLines lines p qty disc).map QuoteLine.product_id
        = lines.map QuoteLine.product_id
  ∨ ((addProductToLines lines p qty disc).map QuoteLine.product_id
        = lines.map QuoteLine.product_id ++ [p.id]
      ∧ p.id ∉ lines.map QuoteLine.product_id) := by
  induction lines with
  | nil =>
    right
    constructor
    · simp [addProductToLines, newQuoteLine]
    · simp
  | cons x xs ih =>
    by_cases hx : x.product_id = p.id
    · left
      simp [addProductToLines, hx, mergeLine]
    · rcases ih with h1 | ⟨h1, h2⟩
      · left
        simp [addProductToLines, hx, h1]
      · right
        constructor
        · simp [addProductToLines, hx, h1]
        · simp [hx, h2]
          intro hcontra
          exact hx hcontra.symm

theorem nodup_addProductToLines (lines : List QuoteLine) (p : Product) (qty disc : ℚ)
    (h : (lines.map QuoteLine.product_id).Nodup) :
    ((addProductToLines lines p qty disc).map QuoteLine.product_id).Nodup := by
  rcases addProductToLines_ids lines p qty disc with h1 | ⟨h1, h2⟩
  · rw [h1]; exact h
  · rw [h1]
    simp [List.nodup_append, h, h2]

theorem nodup_filter_lines (lines : List QuoteLine) (pid : ℕ)
    (h : (lines.map QuoteLine.product_id).Nodup) :
    ((lines.filter (fun line => line.product_id ≠ pid)).map QuoteLine.product_id).Nodup :=
  ((List.filter_sublist lines).map QuoteLine.product_id).nodup h

theorem foldl_ops_nodup (ops : List QuoteLineOp) (lines : List QuoteLine)
    (h : (lines.map QuoteLine.product_id).Nodup) :
    ((ops.foldl applyQuoteLineOp lines).map QuoteLine.product_id).Nodup := by
  induction ops generalizing lines with
  | nil => exact h
  | cons op ops ih =>
    rw [List.foldl_cons]
    cases op with
    | add p qty disc => exact ih _ (nodup_addProductToLines lines p qty disc h)
    | remove pid => exact ih _ (nodup_filter_lines lines pid h)

theorem addProductToLines_merge (pre post : List QuoteLine) (line : QuoteLine)
    (p : Product) (qty disc : ℚ)
    (hpid : line.product_id = p.id) (hpre : ∀ l ∈ pre, l.product_id ≠ p.id) :
    addProductToLines (pre ++ line :: post) p qty disc
      = pre ++ mergeLine line qty disc :: post := by
  induction pre with
  | nil => simp [addProductToLines, hpid]
  | cons x xs ih =>
    have hx : x.product_id ≠ p.id := hpre x (by simp)
    have ih2 := ih (fun l hl => hpre l (by simp [hl]))
    show addProductToLines (x :: (xs ++ line :: post)) p qty disc
        = x :: (xs ++ mergeLine line qty disc :: post)
    rw [addProductToLines, if_neg hx, ih2]

/-- C9: starting from the empty line list, any sequence of adds and removes
keeps every product_id on at most one line; adding a product already
present keeps the list length, adds the entered quantity to the existing
line, replaces its discount with the entered one and recomputes the
subtotal from the new discount. -/
theorem quote_lines_unique_and_merge (ops : List QuoteLineOp) (pre post : List QuoteLine)
    (line : QuoteLine) (p : Product) (qty disc : ℚ)
    (hpid : line.product_id = p.id) (hpre : ∀ l ∈ pre, l.product_id ≠ p.id) :
    ((runQuoteLineOps ops).map QuoteLine.product_id).Nodup
  ∧ addProductToLines (pre ++ line :: post) p qty disc
      = pre ++ mergeLine line qty disc :: post
  ∧ (addProductToLines (pre ++ line :: post) p qty disc).length
      = (pre ++ line :: post).length
  ∧ (mergeLine line qty disc).quantity = line.quantity + qty
  ∧ (mergeLine line qty disc).discount = disc
  ∧ (mergeLine line qty disc).subtotal
      = (line.quantity + qty) * line.unit_price * (1 - disc / 100) := by
  have hmerge := addProductToLines_merge pre post line p qty disc hpid hpre
  refine ⟨foldl_ops_nodup ops [] (by simp), hmerge, ?_, rfl, rfl, ?_⟩
  · rw [hmerge]; simp
  · simp [mergeLine, jsOr_zero]

/-- C9 witness: two adds of distinct products then a remove keep the ids
unique, and a concrete merge of 3 more units at a new 20 percent discount
onto an existing line of 2 units at price 50. -/
theorem quote_lines_unique_and_merge_witness :
    ((runQuoteLineOps [.add ⟨1, "A", 50, 0⟩ 2 0, .add ⟨2, "B", 30, 0⟩ 1 0, .remove 1]).map
        QuoteLine.product_id).Nodup
  ∧ addProductToLines ([] ++ ⟨1, "A", 2, 50, 5, 95⟩ :: []) ⟨1, "A", 50, 9⟩ 3 20
      = [] ++ mergeLine ⟨1, "A", 2, 50, 5, 95⟩ 3 20 :: []
  ∧ (addProductToLines ([] ++ ⟨1, "A", 2, 50, 5, 95⟩ :: []) ⟨1, "A", 50, 9⟩ 3 20).length
      = ([] ++ (⟨1, "A", 2, 50, 5, 95⟩ : QuoteLine) :: []).length
  ∧ (mergeLine ⟨1, "A", 2, 50, 5, 95⟩ 3 20).quantity = 2 + 3
  ∧ (mergeLine ⟨1, "A", 2, 50, 5, 95⟩ 3 20).discount = 20
  ∧ (mergeLine ⟨1, "A", 2, 50, 5, 95⟩ 3 20).subtotal = (2 + 3) * 50 * (1 - 20 / 100) :=
  quote_lines_unique_and_merge
    [.add ⟨1, "A", 50, 0⟩ 2 0, .add ⟨2, "B", 30, 0⟩ 1 0, .remove 1]
    [] [] ⟨1, "A", 2, 50, 5, 95⟩ ⟨1, "A", 50, 9⟩ 3 20 rfl (by simp)

/-! ### C4 -/

theorem applyToInvoice_amount (d : Deposit) (amt : ℚ) :
    (applyToInvoice d amt).amount = d.amount := by
  unfold applyToInvoice; split <;> rfl

theorem refundDeposit_amount (d : Deposit) (amt : ℚ) (reason : String) :
    (refundDeposit d amt reason).amount = d.amount := by
  unfold refundDeposit; split <;> rfl

theorem applyToInvoice_bounds (d : Deposit) (amt : ℚ)
    (h0 : 0 ≤ d.available_amount) (h1 : d.available_amount ≤ d.amount) (ha : 0 ≤ amt) :
    0 ≤ (applyToInvoice d amt).available_amount
  ∧ (applyToInvoice d amt).available_amount ≤ d.amount := by
  unfold applyToInvoice
  split
  · constructor <;> simp <;> linarith
  · exact ⟨h0, h1⟩

theorem refundDeposit_bounds (d : Deposit) (amt : ℚ) (reason : String)
    (h0 : 0 ≤ d.available_amount) (h1 : d.available_amount ≤ d.amount) (ha : 0 ≤ amt) :
    0 ≤ (refundDeposit d amt reason).available_amount
  ∧ (refundDeposit d amt reason).available_amount ≤ d.amount := by
  unfold refundDeposit
  split
  · rename_i hcond
    constructor <;> simp <;> linarith [hcond.2]
  · exact ⟨h0, h1⟩

/-- C4 amended: the claim needs the request amounts to be non-negative as
well (the amount input enforces min 0 client-side, Quotes.tsx line 1424);
under that, a deposit starting with 0 <= available_amount <= amount keeps
0 <= available_amount <= amount across every sequence of apply and refund
round trips, with the original amount immutable. -/
theorem deposit_available_invariant (d : Deposit) (acts : List DepositAction)
    (h0 : 0 ≤ d.available_amount) (h1 : d.available_amount ≤ d.amount)
    (hacts : ∀ a ∈ acts, 0 ≤ a.amountOf) :
    (runDepositActions d acts).amount = d.amount
  ∧ 0 ≤ (runDepositActions d acts).available_amount
  ∧ (runDepositActions d acts).available_amount ≤ (runDepositActions d acts).amount := by
  induction acts generalizing d with
  | nil => exact ⟨rfl, h0, h1⟩
  | cons a acts ih =>
    have hrest : ∀ b ∈ acts, 0 ≤ b.amountOf := fun b hb => hacts b (by simp [hb])
    cases a with
    | apply amt invoiceId =>
      have hA : 0 ≤ amt := hacts (.apply amt invoiceId) (by simp)
      have hb := applyToInvoice_bounds d amt h0 h1 hA
      have ha := applyToInvoice_amount d amt
      have h := ih (applyToInvoice d amt) hb.1 (ha ▸ hb.2) hrest
      exact ⟨h.1.trans ha, h.2.1, h.2.2⟩
    | refund amt reason =>
      have hA : 0 ≤ amt := hacts (.refund amt reason) (by simp)
      have hb := refundDeposit_bounds d amt reason h0 h1 hA
      have ha := refundDeposit_amount d amt reason
      have h := ih (refundDeposit d amt reason) hb.1 (ha ▸ hb.2) hrest
      exact ⟨h.1.trans ha, h.2.1, h.2.2⟩

/-- C4 witness: the spec example, deposit of 500000 with 200000 applied to
an invoice and 300000 refunded with a reason, stays within its bounds. -/
theorem deposit_available_invariant_witness :
    (runDepositActions ⟨500000, 500000, .ACTIVE⟩
        [.apply 200000 1, .refund 300000 ("cliente desistio")]).amount
      = (⟨500000, 500000, .ACTIVE⟩ : Deposit).amount
  ∧ 0 ≤ (runDepositActions ⟨500000, 500000, .ACTIVE⟩
        [.apply 200000 1, .refund 300000 ("cliente desistio")]).available_amount
  ∧ (runDepositActions ⟨500000, 500000, .ACTIVE⟩
        [.apply 200000 1, .refund 300000 ("cliente desistio")]).available_amount
      ≤ (runDepositActions ⟨500000, 500000, .ACTIVE⟩
        [.apply 200000 1, .refund 300000 ("cliente desistio")]).amount :=
  deposit_available_invariant ⟨500000, 500000, .ACTIVE⟩
    [.apply 200000 1, .refund 300000 ("cliente desistio")]
    (by norm_num) (by norm_num)
    (by
      intro a ha
      simp only [List.mem_cons, List.mem_singleton] at ha
      rcases ha with rfl | rfl | h
      · norm_num [DepositAction.amountOf]
      · norm_num [DepositAction.amountOf]
      · simp at h)

/-- C4 counterexample: the claim as stated only requires
amount <= available_amount of each request; the request amount -100000
satisfies that against a fully available 500000 deposit, yet after applying
it the available_amount is 600000, above the original amount, so the
invariant fails without a non-negativity requirement. -/
theorem deposit_available_invariant_cex :
    ((-100000 : ℚ) ≤ (⟨500000, 500000, .ACTIVE⟩ : Deposit).available_amount)
  ∧ (runDepositActions ⟨500000, 500000, .ACTIVE⟩ [.apply (-100000) 1]).available_amount
      = 600000
  ∧ ¬ (runDepositActions ⟨500000, 500000, .ACTIVE⟩ [.apply (-100000) 1]).available_amount
      ≤ (runDepositActions ⟨500000, 500000, .ACTIVE⟩ [.apply (-100000) 1]).amount := by
  refine ⟨by norm_num, ?_, ?_⟩ <;>
    norm_num [runDepositActions, applyToInvoice]

/-! ### C5 and C6: date lemmas -/

theorem midnight_lt_iff (a b : ℤ) : midnight a < midnight b ↔ a < b := by
  unfold midnight
  rw [mul_lt_mul_right (by norm_num : (0 : ℚ) < 86400000)]
  exact_mod_cast Iff.rfl

theorem ceil_midnight_diff (e d : ℤ) : ⌈(midnight e - midnight d) / 86400000⌉ = e - d := by
  have h : (midnight e - midnight d) / 86400000 = ((e - d : ℤ) : ℚ) := by
    unfold midnight
    push_cast
    field_simp
    ring
  rw [h, Int.ceil_intCast]

theorem ceil_day_diff (e d : ℤ) (ms : ℚ) (h0 : 0 ≤ ms) (h1 : ms < 86400000) :
    ⌈(midnight e - (d * 86400000 + ms)) / 86400000⌉ = e - d := by
  have h : (midnight e - (d * 86400000 + ms)) / 86400000
      = ((e - d : ℤ) : ℚ) - ms / 86400000 := by
    unfold midnight
    push_cast
    field_simp
    ring
  rw [h, Int.ceil_eq_iff]
  have hms0 : 0 ≤ ms / 86400000 := by positivity
  have hms1 : ms / 86400000 < 1 := by
    rw [div_lt_one (by norm_num : (0 : ℚ) < 86400000)]
    exact h1
  constructor
  · push_cast
    linarith
  · push_cast
    linarith

theorem midnight_lt_time_iff (e : ℤ) (t : JsInstant) (h0 : 0 ≤ t.ms) (h1 : t.ms < 86400000) :
    midnight e < t.time ↔ e < t.day ∨ (e = t.day ∧ 0 < t.ms) := by
  unfold midnight JsInstant.time
  constructor
  · intro h
    rcases lt_trichotomy e t.day with hlt | heq | hgt
    · exact Or.inl hlt
    · refine Or.inr ⟨heq, ?_⟩
      rw [heq] at h
      linarith
    · exfalso
      have : (t.day : ℚ) + 1 ≤ (e : ℚ) := by exact_mod_cast Int.add_one_le_iff.mpr hgt
      nlinarith
  · intro h
    rcases h with hlt | ⟨heq, hms⟩
    · have : (e : ℚ) + 1 ≤ (t.day : ℚ) := by exact_mod_cast Int.add_one_le_iff.mpr hlt
      nlinarith
    · rw [heq]
      linarith

/-! ### C5 -/

/-- C5 amended: the customer-view predicates and the product-view
isExpiringSoon behave as claimed (isRegimeExpired iff expiry < today,
isRegimeExpiringSoon iff the day count lies in 0..5, isExpiringSoon iff it
lies in 0..30); but the product-view isExpired compares the expiry midnight
against the full current instant, so it also returns true on the expiry day
itself at any time after midnight, not only when the expiry date is
strictly before today. -/
theorem expiry_classification (expiry todayDay : ℤ) (now : JsInstant)
    (h0 : 0 ≤ now.ms) (h1 : now.ms < 86400000) :
    isRegimeExpired (some expiry) todayDay = decide (expiry < todayDay)
  ∧ isRegimeExpiringSoon (some expiry) todayDay
      = decide (0 ≤ expiry - todayDay ∧ expiry - todayDay ≤ 5)
  ∧ isExpiringSoon (some expiry) now
      = decide (0 ≤ expiry - now.day ∧ expiry - now.day ≤ 30)
  ∧ isExpired (some expiry) now
      = decide (expiry < now.day ∨ (expiry = now.day ∧ 0 < now.ms)) := by
  refine ⟨?_, ?_, ?_, ?_⟩
  · unfold isRegimeExpired
    exact decide_eq_decide.mpr (midnight_lt_iff expiry todayDay)
  · show (decide (⌈(midnight expiry - midnight todayDay) / 86400000⌉ ≤ 5)
        && decide (0 ≤ ⌈(midnight expiry - midnight todayDay) / 86400000⌉))
      = decide (0 ≤ expiry - todayDay ∧ expiry - todayDay ≤ 5)
    rw [ceil_midnight_diff, Bool.decide_and, Bool.and_comm]
  · show (decide (⌈(midnight expiry - now.time) / 86400000⌉ ≤ 30)
        && decide (0 ≤ ⌈(midnight expiry - now.time) / 86400000⌉))
      = decide (0 ≤ expiry - now.day ∧ expiry - now.day ≤ 30)
    rw [show now.time = now.day * 86400000 + now.ms from rfl]
    rw [ceil_day_diff expiry now.day now.ms h0 h1, Bool.decide_and, Bool.and_comm]
  · unfold isExpired
    exact decide_eq_decide.mpr (midnight_lt_time_iff expiry now h0 h1)

/-- C5 witness: the classification at expiry day 2, customer today day 1,
product-view instant at the midnight of day 1. -/
theorem expiry_classification_witness :
    isRegimeExpired (some 2) 1 = decide ((2 : ℤ) < 1)
  ∧ isRegimeExpiringSoon (some 2) 1 = decide (0 ≤ (2 : ℤ) - 1 ∧ (2 : ℤ) - 1 ≤ 5)
  ∧ isExpiringSoon (some 2) ⟨1, 0⟩ = decide (0 ≤ (2 : ℤ) - 1 ∧ (2 : ℤ) - 1 ≤ 30)
  ∧ isExpired (some 2) ⟨1, 0⟩ = decide ((2 : ℤ) < 1 ∨ ((2 : ℤ) = 1 ∧ (0 : ℚ) < 0)) :=
  expiry_classification 2 1 ⟨1, 0⟩ (le_refl 0) (by norm_num)

/-- C5 counterexample: one millisecond after midnight of the expiry day
itself, the product-view isExpired already returns true although the
expiry date is not strictly before today (both are day 0), against the
claim that isExpired holds exactly for dates strictly before today. -/
theorem product_isExpired_same_day_cex :
    isExpired (some 0) ⟨0, 1⟩ = true
  ∧ ¬ ((0 : ℤ) < 0)
  ∧ (0 : ℚ) ≤ 1 ∧ (1 : ℚ) < 86400000 := by
  refine ⟨?_, by norm_num, by norm_num, by norm_num⟩
  simp [isExpired, midnight, JsInstant.time]

/-! ### C6 -/

/-- C6 amended: for an expiry three days from today the customer view
reports expiring-soon and not expired, as claimed; but the product view
also reports expiring-soon, since 3 lies within its 30-day threshold — the
30-day threshold makes it more inclusive, not less. -/
theorem expiry_today_plus_three (todayDay : ℤ) (now : JsInstant)
    (h0 : 0 ≤ now.ms) (h1 : now.ms < 86400000) :
    isRegimeExpiringSoon (some (todayDay + 3)) todayDay = true
  ∧ isRegimeExpired (some (todayDay + 3)) todayDay = false
  ∧ isExpiringSoon (some (now.day + 3)) now = true := by
  refine ⟨?_, ?_, ?_⟩
  · show (decide (⌈(midnight (todayDay + 3) - midnight todayDay) / 86400000⌉ ≤ 5)
        && decide (0 ≤ ⌈(midnight (todayDay + 3) - midnight todayDay) / 86400000⌉)) = true
    rw [ceil_midnight_diff]
    simp
  · show decide (midnight (todayDay + 3) < midnight todayDay) = false
    simp [midnight_lt_iff]
  · show (decide (⌈(midnight (now.day + 3) - now.time) / 86400000⌉ ≤ 30)
        && decide (0 ≤ ⌈(midnight (now.day + 3) - now.time) / 86400000⌉)) = true
    rw [show now.time = now.day * 86400000 + now.ms from rfl]
    rw [ceil_day_diff (now.day + 3) now.day now.ms h0 h1]
    simp

/-- C6 witness: today is day 10 in the customer view; in the product view
the current instant is 100 ms past the midnight of day 5. -/
theorem expiry_today_plus_three_witness :
    isRegimeExpiringSoon (some (10 + 3)) 10 = true
  ∧ isRegimeExpired (some (10 + 3)) 10 = false
  ∧ isExpiringSoon (some (5 + 3)) ⟨5, 100⟩ = true :=
  expiry_today_plus_three 10 ⟨5, 100⟩ (by norm_num) (by norm_num)

/-- C6 counterexample: at the midnight of day 0 with expiry day 3, the
product-view isExpiringSoon returns true, not false as the claim states. -/
theorem product_expiring_three_days_cex :
    isExpiringSoon (some 3) ⟨0, 0⟩ = true := by
  simp [isExpiringSoon, midnight, JsInstant.time]

end SistemaVentas
